import Mathlib

/-!
Verification of the webhook ingestion and dispatch subsystem of the
go-cryptopay library, as a shallow embedding in Lean 4.

Bytes are modelled as natural numbers (each byte < 256 where produced by the
embedded code), byte strings as `List Nat`, machine 32-bit words as naturals
reduced modulo 2^32 at every operation, and fallible Go code as
`Option`/`Except` (a Go panic is `Option.none`).

The embedding follows the source files:
  * `webhook.go` (package cryptopay): `Webhook.verify`, the `Run` loop body,
    `Webhook.error`, `ErrorWrongSignature`;
  * the Go standard library primitives that `verify` calls:
    `crypto/sha256`, `crypto/hmac` (with `crypto/subtle` constant-time
    comparison), `encoding/hex`, and the fragment of `encoding/json`
    semantics the claims exercise;
  * the client file that defines `Client.On` / `Client.DeleteHandler` /
    `Client.Once` over the handlers-map webhook;
  * the options file with `GetInvoicesOptions.QueryParams` and `joinInt64`.

The handlers-map `Webhook` type itself (`Bind`, `DeleteHandlerByIndex`,
the dispatch loop of `ServeHTTP`) is not among the source files - only its
tests and its `Client` aliases are - so those operations are modelled from
the specification, each marked `Modelled from the spec:` in its doc comment.
-/

namespace GoCryptoPay

/-! ## 32-bit word arithmetic (Go uint32 semantics) -/

/-- Truncation to 32 bits, the implicit wrap of every Go `uint32` operation. -/
def mask32 (x : Nat) : Nat := x % 4294967296

/-- 32-bit wrapping addition. -/
def add32 (a b : Nat) : Nat := mask32 (a + b)

/-- 32-bit rotate right by `n` (0 < n < 32), as in `math/bits.RotateLeft32`
with a negative shift, used throughout `crypto/sha256`. -/
def rotr32 (n x : Nat) : Nat := mask32 ((x >>> n) ||| (x <<< (32 - n)))

/-- Bitwise complement within 32 bits (Go `^x` on uint32). -/
def not32 (x : Nat) : Nat := 4294967295 ^^^ (mask32 x)

/-! ## SHA-256 (crypto/sha256, FIPS 180-4) -/

/-- The SHA-256 round constants `_K` of crypto/sha256 (in decimal). -/
def sha256K : List Nat :=
  [1116352408, 1899447441, 3049323471, 3921009573, 961987163, 1508970993,
   2453635748, 2870763221, 3624381080, 310598401, 607225278, 1426881987,
   1925078388, 2162078206, 2614888103, 3248222580, 3835390401, 4022224774,
   264347078, 604807628, 770255983, 1249150122, 1555081692, 1996064986,
   2554220882, 2821834349, 2952996808, 3210313671, 3336571891, 3584528711,
   113926993, 338241895, 666307205, 773529912, 1294757372, 1396182291,
   1695183700, 1986661051, 2177026350, 2456956037, 2730485921, 2820302411,
   3259730800, 3345764771, 3516065817, 3600352804, 4094571909, 275423344,
   430227734, 506948616, 659060556, 883997877, 958139571, 1322822218,
   1537002063, 1747873779, 1955562222, 2024104815, 2227730452, 2361852424,
   2428436474, 2756734187, 3204031479, 3329325298]

/-- Message-schedule function sigma0. -/
def smallSigma0 (x : Nat) : Nat := (rotr32 7 x) ^^^ (rotr32 18 x) ^^^ (x >>> 3)

/-- Message-schedule function sigma1. -/
def smallSigma1 (x : Nat) : Nat := (rotr32 17 x) ^^^ (rotr32 19 x) ^^^ (x >>> 10)

/-- Compression function Sigma0. -/
def bigSigma0 (x : Nat) : Nat := (rotr32 2 x) ^^^ (rotr32 13 x) ^^^ (rotr32 22 x)

/-- Compression function Sigma1. -/
def bigSigma1 (x : Nat) : Nat := (rotr32 6 x) ^^^ (rotr32 11 x) ^^^ (rotr32 25 x)

/-- Choice function of the SHA-256 round. -/
def shaCh (x y z : Nat) : Nat := (x &&& y) ^^^ ((not32 x) &&& z)

/-- Majority function of the SHA-256 round. -/
def shaMaj (x y z : Nat) : Nat := (x &&& y) ^^^ (x &&& z) ^^^ (y &&& z)

/-- Group a byte list into big-endian 32-bit words (complete groups of 4). -/
def bytesToWords : List Nat → List Nat
  | b0 :: b1 :: b2 :: b3 :: rest =>
      ((b0 <<< 24) ||| (b1 <<< 16) ||| (b2 <<< 8) ||| b3) :: bytesToWords rest
  | _ => []

/-- The `n` low-order bytes of `v`, big-endian. -/
def natToBytesBE (n : Nat) (v : Nat) : List Nat :=
  (List.range n).map (fun i => (v >>> (8 * (n - 1 - i))) % 256)

/-- SHA-256 padding: append `0x80`, zero bytes to 56 mod 64, then the
message bit length as 8 big-endian bytes. -/
def sha256pad (msg : List Nat) : List Nat :=
  let zeros := (120 - ((msg.length + 1) % 64)) % 64
  msg ++ [0x80] ++ List.replicate zeros 0 ++ natToBytesBE 8 (8 * msg.length)

/-- Split a (padded) byte list into 64-byte chunks. -/
def chunks64 (l : List Nat) : List (List Nat) :=
  if l.isEmpty then [] else l.take 64 :: chunks64 (l.drop 64)
termination_by l.length
decreasing_by
  simp only [List.length_drop]
  cases l with
  | nil => simp [List.isEmpty] at *
  | cons a t => simp; omega

/-- Extend 16 message words to the 64-word schedule `W`. -/
def extendSchedule (w0 : List Nat) : List Nat :=
  (List.range 48).foldl
    (fun ws _ =>
      let n := ws.length
      ws ++ [add32 (add32 (smallSigma1 (ws.getD (n - 2) 0)) (ws.getD (n - 7) 0))
                   (add32 (smallSigma0 (ws.getD (n - 15) 0)) (ws.getD (n - 16) 0))])
    w0

/-- The eight 32-bit working variables of the SHA-256 state. -/
structure Sha256State where
  a : Nat
  b : Nat
  c : Nat
  d : Nat
  e : Nat
  f : Nat
  g : Nat
  hh : Nat

/-- The initial hash value `H0` of crypto/sha256 (in decimal). -/
def sha256init : Sha256State :=
  ⟨1779033703, 3144134277, 1013904242, 2773480762,
   1359893119, 2600822924, 528734635, 1541459225⟩

/-- One SHA-256 round, consuming one `(K, W)` pair. -/
def sha256round (s : Sha256State) (kw : Nat × Nat) : Sha256State :=
  let t1 := add32 s.hh (add32 (bigSigma1 s.e) (add32 (shaCh s.e s.f s.g) (add32 kw.1 kw.2)))
  let t2 := add32 (bigSigma0 s.a) (shaMaj s.a s.b s.c)
  ⟨add32 t1 t2, s.a, s.b, s.c, add32 s.d t1, s.e, s.f, s.g⟩

/-- Process one 64-byte block: 64 rounds, then add into the chaining state. -/
def sha256block (s : Sha256State) (block : List Nat) : Sha256State :=
  let ws := extendSchedule (bytesToWords block)
  let r := (sha256K.zip ws).foldl sha256round s
  ⟨add32 s.a r.a, add32 s.b r.b, add32 s.c r.c, add32 s.d r.d,
   add32 s.e r.e, add32 s.f r.f, add32 s.g r.g, add32 s.hh r.hh⟩

/-- A 32-bit word as 4 big-endian bytes. -/
def wordBytesBE (w : Nat) : List Nat :=
  [(w >>> 24) % 256, (w >>> 16) % 256, (w >>> 8) % 256, w % 256]

/-- SHA-256 of a byte list, as the 32 digest bytes
(`sha256.New` / `Write` / `Sum(nil)` in Go). -/
def sha256 (msg : List Nat) : List Nat :=
  let s := (chunks64 (sha256pad msg)).foldl sha256block sha256init
  wordBytesBE s.a ++ wordBytesBE s.b ++ wordBytesBE s.c ++ wordBytesBE s.d ++
  wordBytesBE s.e ++ wordBytesBE s.f ++ wordBytesBE s.g ++ wordBytesBE s.hh

theorem sha256_length (msg : List Nat) : (sha256 msg).length = 32 := by
  simp [sha256, wordBytesBE]

theorem wordBytesBE_lt (w : Nat) : ∀ b ∈ wordBytesBE w, b < 256 := by
  intro b hb
  simp [wordBytesBE] at hb
  rcases hb with h | h | h | h <;> (rw [h]; exact Nat.mod_lt _ (by norm_num))

theorem sha256_lt (msg : List Nat) : ∀ b ∈ sha256 msg, b < 256 := by
  intro b hb
  simp only [sha256, List.append_assoc, List.mem_append] at hb
  rcases hb with h | h | h | h | h | h | h | h <;> exact wordBytesBE_lt _ _ h

/-! ## HMAC (crypto/hmac) -/

/-- HMAC-SHA-256 of `msg` under `key`, as in `hmac.New(sha256.New, key)`
followed by `Write(msg)` and `Sum(nil)`: keys longer than the 64-byte block
are hashed first, the key is zero-padded to the block size, and the digest is
`H((key xor opad) || H((key xor ipad) || msg))`. -/
def hmacSha256 (key msg : List Nat) : List Nat :=
  let k := if key.length > 64 then sha256 key else key
  let kp := k ++ List.replicate (64 - k.length) 0
  let ipadded := kp.map (fun b => b ^^^ 0x36)
  let opadded := kp.map (fun b => b ^^^ 0x5c)
  sha256 (opadded ++ sha256 (ipadded ++ msg))

theorem hmacSha256_length (key msg : List Nat) : (hmacSha256 key msg).length = 32 :=
  sha256_length _

theorem hmacSha256_lt (key msg : List Nat) : ∀ b ∈ hmacSha256 key msg, b < 256 :=
  sha256_lt _

/-! ## Constant-time comparison (crypto/subtle, used by hmac.Equal) -/

/-- `subtle.ConstantTimeCompare` as called by `hmac.Equal`: unequal lengths
give `false`; otherwise the bytes are xored pairwise, the results ored
together, and the accumulator compared with zero. -/
def constantTimeCompare (x y : List Nat) : Bool :=
  if x.length ≠ y.length then false
  else (List.zipWith Nat.xor x y).foldl Nat.lor 0 == 0

theorem lor_eq_zero (a b : Nat) : Nat.lor a b = 0 ↔ a = 0 ∧ b = 0 := by
  constructor
  · intro h
    have h2 : a ||| b = 0 := h
    constructor <;>
    · apply Nat.eq_of_testBit_eq
      intro i
      have hbit := congrArg (fun n => Nat.testBit n i) h2
      simp only [Nat.testBit_lor, Nat.zero_testBit, Bool.or_eq_false_iff] at hbit
      simp [hbit.1, hbit.2]
  · rintro ⟨rfl, rfl⟩
    rfl

theorem foldl_lor_eq_zero (l : List Nat) (a : Nat) :
    l.foldl Nat.lor a = 0 ↔ a = 0 ∧ ∀ x ∈ l, x = 0 := by
  induction l generalizing a with
  | nil => simp
  | cons y t ih =>
    simp only [List.foldl_cons, ih, List.mem_cons, lor_eq_zero]
    constructor
    · rintro ⟨⟨ha, hy⟩, hall⟩
      exact ⟨ha, fun x hx => hx.elim (fun he => he ▸ hy) (hall x)⟩
    · rintro ⟨ha, hall⟩
      exact ⟨⟨ha, hall y (Or.inl rfl)⟩, fun x hx => hall x (Or.inr hx)⟩

theorem mem_zipWith_xor_self (x : List Nat) : ∀ z ∈ List.zipWith Nat.xor x x, z = 0 := by
  induction x with
  | nil => intro z hz; cases hz
  | cons w t ih =>
    intro z hz
    rcases List.mem_cons.mp hz with h | h
    · rw [h]; exact Nat.xor_self w
    · exact ih z h

theorem constantTimeCompare_iff (x y : List Nat) :
    constantTimeCompare x y = true ↔ x = y := by
  unfold constantTimeCompare
  split
  · rename_i hlen
    constructor
    · intro h; cases h
    · intro h; exact absurd (congrArg List.length h) hlen
  · rename_i hlen
    rw [not_ne_iff] at hlen
    rw [beq_iff_eq, foldl_lor_eq_zero]
    constructor
    · rintro ⟨-, hall⟩
      apply List.ext_getElem hlen
      intro i h1 h2
      have hx : x[i] ^^^ y[i] = 0 := by
        apply hall
        have hzl : i < (List.zipWith Nat.xor x y).length := by
          simp [List.length_zipWith]
          omega
        have hget : (List.zipWith Nat.xor x y).get ⟨i, hzl⟩ = x[i] ^^^ y[i] := by
          simp only [List.get_eq_getElem, List.getElem_zipWith]
          rfl
        rw [← hget]
        exact List.get_mem _ _ _
      have := Nat.xor_eq_zero.mp hx
      exact this
    · rintro rfl
      exact ⟨rfl, mem_zipWith_xor_self x⟩

theorem constantTimeCompare_self (x : List Nat) : constantTimeCompare x x = true :=
  (constantTimeCompare_iff x x).mpr rfl

theorem constantTimeCompare_false_of_length_ne (x y : List Nat)
    (h : x.length ≠ y.length) : constantTimeCompare x y = false := by
  unfold constantTimeCompare
  simp [h]

/-! ## Hex codec (encoding/hex) -/

/-- The value of one hex digit character, as in `encoding/hex.fromHexChar`;
`none` for a character outside `0-9a-fA-F` (Go's `InvalidByteError`). -/
def hexDigitValue (c : Char) : Option Nat :=
  if '0' ≤ c ∧ c ≤ '9' then some (c.toNat - 48)
  else if 'a' ≤ c ∧ c ≤ 'f' then some (c.toNat - 87)
  else if 'A' ≤ c ∧ c ≤ 'F' then some (c.toNat - 55)
  else none

/-- `hex.DecodeString` over the character list: consumes digit pairs;
a trailing lone digit is Go's `ErrLength`, a bad digit its
`InvalidByteError` - both are `none` here. -/
def hexDecodeChars : List Char → Option (List Nat)
  | [] => some []
  | [_] => none
  | c1 :: c2 :: rest => do
      let hi ← hexDigitValue c1
      let lo ← hexDigitValue c2
      let tail ← hexDecodeChars rest
      pure ((16 * hi + lo) :: tail)

/-- `hex.DecodeString` on a Go string. -/
def hexDecodeString (s : String) : Option (List Nat) :=
  hexDecodeChars s.data

/-- The lowercase hex digit for `n < 16`, from `encoding/hex`'s digit table. -/
def hexDigitChar (n : Nat) : Char :=
  if n < 10 then Char.ofNat (48 + n) else Char.ofNat (87 + n)

/-- `hex.EncodeToString` over bytes: high nibble then low nibble of each. -/
def hexEncodeBytes (bs : List Nat) : List Char :=
  bs.flatMap (fun b => [hexDigitChar (b / 16), hexDigitChar (b % 16)])

/-- `hex.EncodeToString` producing a Go string. -/
def hexEncodeString (bs : List Nat) : String :=
  String.mk (hexEncodeBytes bs)

theorem hexDigitValue_hexDigitChar (n : Nat) (h : n < 16) :
    hexDigitValue (hexDigitChar n) = some n := by
  interval_cases n <;> decide

theorem hexDecodeChars_hexEncodeBytes (bs : List Nat) (h : ∀ b ∈ bs, b < 256) :
    hexDecodeChars (hexEncodeBytes bs) = some bs := by
  induction bs with
  | nil => rfl
  | cons b t ih =>
    have hb : b < 256 := h b (List.mem_cons_self b t)
    have hhi : b / 16 < 16 := by omega
    have hlo : b % 16 < 16 := Nat.mod_lt _ (by norm_num)
    have ht : hexDecodeChars (hexEncodeBytes t) = some t :=
      ih (fun x hx => h x (List.mem_cons_of_mem b hx))
    have hsplit : hexEncodeBytes (b :: t)
        = hexDigitChar (b / 16) :: hexDigitChar (b % 16) :: hexEncodeBytes t := by
      simp [hexEncodeBytes]
    rw [hsplit, hexDecodeChars, hexDigitValue_hexDigitChar _ hhi,
      hexDigitValue_hexDigitChar _ hlo, ht]
    have hb16 : 16 * (b / 16) + b % 16 = b := by omega
    simp [hb16]

theorem hexDecodeString_hexEncodeString (bs : List Nat) (h : ∀ b ∈ bs, b < 256) :
    hexDecodeString (hexEncodeString bs) = some bs :=
  hexDecodeChars_hexEncodeBytes bs h

/-! ## JSON values and parser (encoding/json syntax checking)

The parser models the JSON grammar as `encoding/json` accepts it. Two
documented approximations, neither load-bearing for any claim: number
literals with leading zeros are accepted, and `\u` escapes are decoded
without surrogate-pair handling. -/

/-- A parsed JSON value. Numbers carry their integer part and whether the
literal was integral (no fraction, no exponent): Go's decoder rejects
non-integral literals for integer-typed struct fields. -/
inductive Json where
  | null : Json
  | bool (b : Bool) : Json
  | num (v : Int) (isIntegral : Bool) : Json
  | str (s : String) : Json
  | arr (items : List Json) : Json
  | obj (fields : List (String × Json)) : Json
deriving Repr

/-- JSON insignificant whitespace. -/
def jsonIsWs (c : Char) : Bool := c = ' ' ∨ c = '\t' ∨ c = '\n' ∨ c = '\r'

/-- Drop leading JSON whitespace. -/
def skipWs : List Char → List Char
  | [] => []
  | c :: rest => if jsonIsWs c then skipWs rest else c :: rest

/-- The character denoted by a single-character JSON escape. -/
def escapeChar (c : Char) : Option Char :=
  if c = '"' then some '"'
  else if c = '\\' then some '\\'
  else if c = '/' then some '/'
  else if c = 'b' then some (Char.ofNat 8)
  else if c = 'f' then some (Char.ofNat 12)
  else if c = 'n' then some '\n'
  else if c = 'r' then some '\r'
  else if c = 't' then some '\t'
  else none

/-- Parse the remainder of a JSON string literal after the opening quote,
accumulating characters (in reverse) until the closing quote. -/
def parseStringChars (acc : List Char) : List Char → Option (String × List Char)
  | [] => none
  | c :: rest =>
    if c = '"' then some (String.mk acc.reverse, rest)
    else if c = '\\' then
      match rest with
      | [] => none
      | e :: rest2 =>
        if e = 'u' then
          match rest2 with
          | h1 :: h2 :: h3 :: h4 :: rest3 =>
            match hexDigitValue h1, hexDigitValue h2, hexDigitValue h3, hexDigitValue h4 with
            | some d1, some d2, some d3, some d4 =>
                parseStringChars (Char.ofNat (4096 * d1 + 256 * d2 + 16 * d3 + d4) :: acc) rest3
            | _, _, _, _ => none
          | _ => none
        else
          match escapeChar e with
          | some ec => parseStringChars (ec :: acc) rest2
          | none => none
    else parseStringChars (c :: acc) rest
termination_by l => l.length

/-- The longest leading run of decimal digits, and the remainder. -/
def spanDigits : List Char → List Char × List Char
  | [] => ([], [])
  | c :: rest =>
    if c.isDigit then
      let (d, r) := spanDigits rest
      (c :: d, r)
    else ([], c :: rest)

/-- Decimal digits to a natural number. -/
def digitsToNat (ds : List Char) : Nat :=
  ds.foldl (fun acc c => 10 * acc + (c.toNat - 48)) 0

/-- Parse an optional exponent part; any exponent makes the literal
non-integral for Go integer-field decoding. -/
def parseExpPart (v : Int) (isIntegral : Bool) : List Char → Option (Json × List Char)
  | 'e' :: r =>
    (match (match r with | '+' :: rr => rr | '-' :: rr => rr | _ => r) with
     | r2 =>
       match spanDigits r2 with
       | ([], _) => none
       | (_, r3) => some (.num v false, r3))
  | 'E' :: r =>
    (match (match r with | '+' :: rr => rr | '-' :: rr => rr | _ => r) with
     | r2 =>
       match spanDigits r2 with
       | ([], _) => none
       | (_, r3) => some (.num v false, r3))
  | cs => some (.num v isIntegral, cs)

/-- Parse a JSON number literal. -/
def parseNumber (cs : List Char) : Option (Json × List Char) :=
  let (neg, cs1) := match cs with
    | '-' :: r => (true, r)
    | _ => (false, cs)
  match spanDigits cs1 with
  | ([], _) => none
  | (ds, rest) =>
    let v : Int := if neg then -(digitsToNat ds : Int) else (digitsToNat ds : Int)
    match rest with
    | '.' :: r2 =>
      (match spanDigits r2 with
       | ([], _) => none
       | (_, r3) => parseExpPart v false r3)
    | _ => parseExpPart v true rest

mutual

/-- Parse one JSON value (fueled recursion; the callers supply fuel larger
than the input length, which bounds the nesting depth). -/
def parseJsonValue : Nat → List Char → Option (Json × List Char)
  | 0, _ => none
  | fuel + 1, cs =>
    match skipWs cs with
    | 'n' :: 'u' :: 'l' :: 'l' :: rest => some (.null, rest)
    | 't' :: 'r' :: 'u' :: 'e' :: rest => some (.bool true, rest)
    | 'f' :: 'a' :: 'l' :: 's' :: 'e' :: rest => some (.bool false, rest)
    | '"' :: rest => (parseStringChars [] rest).map (fun p => (.str p.1, p.2))
    | '[' :: rest =>
      (match skipWs rest with
       | ']' :: rest2 => some (.arr [], rest2)
       | rest2 => (parseArrayElems fuel rest2).map (fun p => (.arr p.1, p.2)))
    | '{' :: rest =>
      (match skipWs rest with
       | '}' :: rest2 => some (.obj [], rest2)
       | rest2 => (parseObjMembers fuel rest2).map (fun p => (.obj p.1, p.2)))
    | cs2 => parseNumber cs2

/-- Parse the comma-separated elements of a non-empty JSON array, up to and
including the closing bracket. -/
def parseArrayElems : Nat → List Char → Option (List Json × List Char)
  | 0, _ => none
  | fuel + 1, cs =>
    match parseJsonValue fuel cs with
    | none => none
    | some (v, rest) =>
      match skipWs rest with
      | ',' :: rest2 => (parseArrayElems fuel rest2).map (fun p => (v :: p.1, p.2))
      | ']' :: rest2 => some ([v], rest2)
      | _ => none

/-- Parse the members of a non-empty JSON object, up to and including the
closing brace. -/
def parseObjMembers : Nat → List Char → Option (List (String × Json) × List Char)
  | 0, _ => none
  | fuel + 1, cs =>
    match skipWs cs with
    | '"' :: rest =>
      (match parseStringChars [] rest with
       | none => none
       | some (key, rest1) =>
         match skipWs rest1 with
         | ':' :: rest2 =>
           (match parseJsonValue fuel rest2 with
            | none => none
            | some (v, rest3) =>
              match skipWs rest3 with
              | ',' :: rest4 => (parseObjMembers fuel rest4).map (fun p => ((key, v) :: p.1, p.2))
              | '}' :: rest4 => some ([(key, v)], rest4)
              | _ => none)
         | _ => none)
    | _ => none

end

/-! ## Decoding into the webhook's Go structs (encoding/json semantics)

The decoder follows Go's `json.Unmarshal` field semantics: unknown object
keys are ignored, a missing key leaves the field at its zero value, `null`
leaves non-pointer fields unchanged and sets pointer fields to nil, a value
of the wrong JSON kind is an `UnmarshalTypeError`, and with duplicate keys
the later value wins. Documented approximations, none load-bearing for a
claim: field names match case-sensitively; `time.Time` and `big.Float`
text contents are retained unparsed (their validity is not modelled). -/

/-- Decode failure, Go's `SyntaxError` or `UnmarshalTypeError`. -/
inductive JsonError where
  | invalidJson : JsonError
  | typeMismatch (goType : String) : JsonError
deriving Repr, DecidableEq

/-- A `time.Time` as the text it was decoded from (zero value: empty). -/
structure GoTime where
  raw : String
deriving Repr, DecidableEq

/-- The `Invoice` payload struct of the models file, pointers as `Option`,
`*big.Float` and `*time.Time` as their retained text. -/
structure Invoice where
  Id : Int
  Hash : String
  Status : String
  Asset : String
  Amount : Option String
  USDRate : Option String
  Fee : Option String
  PayUrl : String
  CreatedAt : Option GoTime
  ExpirationDate : Option GoTime
  Description : Option String
  Comment : Option String
  HiddenMessage : Option String
  Payload : Option String
  PaidBtnName : Option String
  PaidBtnUrl : Option String
  PaidAt : Option GoTime
  PaidAnonymously : Option Bool
  AllowComments : Bool
  AllowAnonymous : Bool
deriving Repr, DecidableEq

/-- The Go zero value of `Invoice`. -/
def Invoice.zero : Invoice :=
  ⟨0, "", "", "", none, none, none, "", none, none, none, none, none, none,
   none, none, none, none, false, false⟩

/-- `WebhookUpdate` of webhook.go: update id, update type, request date,
invoice payload. -/
structure WebhookUpdate where
  Id : Int
  UpdateType : String
  RequestDate : GoTime
  Payload : Invoice
deriving Repr, DecidableEq

/-- The Go zero value of `WebhookUpdate`. -/
def WebhookUpdate.zero : WebhookUpdate := ⟨0, "", ⟨""⟩, Invoice.zero⟩

/-- Store a JSON value into an `int` field: integral number sets it, `null`
leaves it, anything else is an `UnmarshalTypeError`. -/
def jsonSetInt (cur : Int) : Json → Except JsonError Int
  | .null => .ok cur
  | .num v true => .ok v
  | _ => .error (.typeMismatch "int")

/-- Store a JSON value into a `string` field. -/
def jsonSetString (cur : String) : Json → Except JsonError String
  | .null => .ok cur
  | .str s => .ok s
  | _ => .error (.typeMismatch "string")

/-- Store a JSON value into a `bool` field. -/
def jsonSetBool (cur : Bool) : Json → Except JsonError Bool
  | .null => .ok cur
  | .bool b => .ok b
  | _ => .error (.typeMismatch "bool")

/-- Store a JSON value into a `*string` field (`null` sets the pointer to
nil). -/
def jsonSetStringPtr : Json → Except JsonError (Option String)
  | .null => .ok none
  | .str s => .ok (some s)
  | _ => .error (.typeMismatch "string")

/-- Store a JSON value into a `*bool` field. -/
def jsonSetBoolPtr : Json → Except JsonError (Option Bool)
  | .null => .ok none
  | .bool b => .ok (some b)
  | _ => .error (.typeMismatch "bool")

/-- Store a JSON value into a non-pointer `time.Time` field:
`time.Time.UnmarshalJSON` demands a JSON string (text retained; validity
not modelled). -/
def jsonSetTime (cur : GoTime) : Json → Except JsonError GoTime
  | .null => .ok cur
  | .str s => .ok ⟨s⟩
  | _ => .error (.typeMismatch "time.Time")

/-- Store a JSON value into a `*time.Time` field. -/
def jsonSetTimePtr : Json → Except JsonError (Option GoTime)
  | .null => .ok none
  | .str s => .ok (some ⟨s⟩)
  | _ => .error (.typeMismatch "time.Time")

/-- Store a JSON value into a `*big.Float` field: `big.Float` is a
`TextUnmarshaler`, so a JSON string is accepted (text retained) and any
other kind is an `UnmarshalTypeError`. -/
def jsonSetBigFloatPtr : Json → Except JsonError (Option String)
  | .null => .ok none
  | .str s => .ok (some s)
  | _ => .error (.typeMismatch "big.Float")

/-- Decode one object member into an `Invoice`, dispatching on the json
struct tag; unknown keys are ignored. -/
def decodeInvoiceField (inv : Invoice) : String × Json → Except JsonError Invoice
  | ("invoice_id", j) => (jsonSetInt inv.Id j).map (fun v => { inv with Id := v })
  | ("hash", j) => (jsonSetString inv.Hash j).map (fun v => { inv with Hash := v })
  | ("status", j) => (jsonSetString inv.Status j).map (fun v => { inv with Status := v })
  | ("asset", j) => (jsonSetString inv.Asset j).map (fun v => { inv with Asset := v })
  | ("amount", j) => (jsonSetBigFloatPtr j).map (fun v => { inv with Amount := v })
  | ("usd_rate", j) => (jsonSetBigFloatPtr j).map (fun v => { inv with USDRate := v })
  | ("fee", j) => (jsonSetBigFloatPtr j).map (fun v => { inv with Fee := v })
  | ("pay_url", j) => (jsonSetString inv.PayUrl j).map (fun v => { inv with PayUrl := v })
  | ("created_at", j) => (jsonSetTimePtr j).map (fun v => { inv with CreatedAt := v })
  | ("expiration_date", j) => (jsonSetTimePtr j).map (fun v => { inv with ExpirationDate := v })
  | ("description", j) => (jsonSetStringPtr j).map (fun v => { inv with Description := v })
  | ("comment", j) => (jsonSetStringPtr j).map (fun v => { inv with Comment := v })
  | ("hidden_message", j) => (jsonSetStringPtr j).map (fun v => { inv with HiddenMessage := v })
  | ("payload", j) => (jsonSetStringPtr j).map (fun v => { inv with Payload := v })
  | ("paid_btn_name", j) => (jsonSetStringPtr j).map (fun v => { inv with PaidBtnName := v })
  | ("paid_btn_url", j) => (jsonSetStringPtr j).map (fun v => { inv with PaidBtnUrl := v })
  | ("paid_at", j) => (jsonSetTimePtr j).map (fun v => { inv with PaidAt := v })
  | ("paid_anonymously", j) => (jsonSetBoolPtr j).map (fun v => { inv with PaidAnonymously := v })
  | ("allow_comments", j) => (jsonSetBool inv.AllowComments j).map (fun v => { inv with AllowComments := v })
  | ("allow_anonymous", j) => (jsonSetBool inv.AllowAnonymous j).map (fun v => { inv with AllowAnonymous := v })
  | (_, _) => .ok inv

/-- Decode a JSON value into a non-pointer `Invoice` struct field. -/
def decodeInvoice (cur : Invoice) : Json → Except JsonError Invoice
  | .null => .ok cur
  | .obj fields => fields.foldlM decodeInvoiceField cur
  | _ => .error (.typeMismatch "Invoice")

/-- Decode one object member into a `WebhookUpdate`, dispatching on the
json struct tag; unknown keys are ignored. -/
def decodeWebhookUpdateField (u : WebhookUpdate) : String × Json → Except JsonError WebhookUpdate
  | ("update_id", j) => (jsonSetInt u.Id j).map (fun v => { u with Id := v })
  | ("update_type", j) => (jsonSetString u.UpdateType j).map (fun v => { u with UpdateType := v })
  | ("request_date", j) => (jsonSetTime u.RequestDate j).map (fun v => { u with RequestDate := v })
  | ("payload", j) => (decodeInvoice u.Payload j).map (fun v => { u with Payload := v })
  | (_, _) => .ok u

/-- Decode a parsed JSON value into `WebhookUpdate` (the target of
`json.Unmarshal(request.Body, update)`): `null` is a no-op on the fresh
zero struct, an object decodes field by field, any other kind is an
`UnmarshalTypeError`. -/
def decodeWebhookUpdate : Json → Except JsonError WebhookUpdate
  | .null => .ok WebhookUpdate.zero
  | .obj fields => fields.foldlM decodeWebhookUpdateField WebhookUpdate.zero
  | _ => .error (.typeMismatch "WebhookUpdate")

/-- The bytes of a request body as characters (bodies the claims exercise
are ASCII; multi-byte UTF-8 sequences are not re-assembled). -/
def bytesToChars (bs : List Nat) : List Char := bs.map Char.ofNat

/-- `json.Unmarshal(body, new(WebhookUpdate))`: full-input syntax check
(trailing non-whitespace is a syntax error), then struct decoding. -/
def unmarshalWebhookUpdate (body : List Nat) : Except JsonError WebhookUpdate :=
  let cs := bytesToChars body
  match parseJsonValue (cs.length + 1) cs with
  | none => .error .invalidJson
  | some (j, rest) =>
    if (skipWs rest).isEmpty then decodeWebhookUpdate j
    else .error .invalidJson

/-! ## Webhook.verify and the Run loop (webhook.go, package cryptopay) -/

/-- The error results of `Webhook.verify`:
`decodeSignature` is the wrapped `hex.DecodeString` error ("cannot decode
request signature"), `wrongSignature` is the sentinel `ErrorWrongSignature`,
`unmarshal` wraps the `json.Unmarshal` error ("cannot unmarshal body to
WebhookUpdate"). -/
inductive VerifyError where
  | decodeSignature : VerifyError
  | wrongSignature : VerifyError
  | unmarshal (e : JsonError) : VerifyError
deriving Repr, DecidableEq

/-- `WebhookRequest` of webhook.go: the signature header value and the raw
body (the `BodyWriter` carries no data relevant to the embedding). -/
structure WebhookRequest where
  Signature : String
  Body : List Nat

/-- `Webhook.verify` of webhook.go: hex-decode the signature header, compare
the HMAC-SHA-256 of the body under the token hash against it with
`hmac.Equal`, then `json.Unmarshal` the body into a fresh `WebhookUpdate`.
The Go function returns `(*WebhookUpdate, error)` with the update nil
exactly on error, which is `Except`. -/
def Webhook.verify (tokenHash : List Nat) (request : WebhookRequest) :
    Except VerifyError WebhookUpdate :=
  match hexDecodeString request.Signature with
  | none => .error .decodeSignature
  | some signature =>
    if !(constantTimeCompare (hmacSha256 tokenHash request.Body) signature) then
      .error .wrongSignature
    else
      match unmarshalWebhookUpdate request.Body with
      | .error e => .error (.unmarshal e)
      | .ok update => .ok update

/-- The externally visible events of one iteration of the `Run` goroutine
loop: an error reported through `w.error(err, req.BodyWriter)`, and the
unconditional call `w.d.Dispatch(upd)` with the update that `verify`
returned (`none` is Go's nil). A `Dispatch` error is passed to
`w.error(err, nil)`, which matches no type-switch case and is silent, so it
contributes no event. -/
inductive RunEvent where
  | errorReported (e : VerifyError)
  | dispatchCalled (upd : Option WebhookUpdate)
deriving Repr, DecidableEq

/-- The body of the `select` case `req := <-w.updates` in `Webhook.Run`:
`upd, err := w.verify(req)`; if `err != nil` the error is reported; then -
with no `continue` separating the two statements - `w.d.Dispatch(upd)` is
always called, with nil when verification failed. -/
def Webhook.runIteration (tokenHash : List Nat) (req : WebhookRequest) : List RunEvent :=
  match Webhook.verify tokenHash req with
  | .error e => [.errorReported e, .dispatchCalled none]
  | .ok upd => [.dispatchCalled (some upd)]

/-! ## Webhook.error (webhook.go) -/

/-- The dynamic type of the `other any` argument of `Webhook.error`, as its
type switch distinguishes it: an `io.Writer`, a `*WebhookUpdate`, or
anything else (including untyped nil). -/
inductive ErrorCompanion where
  | bodyWriter : ErrorCompanion
  | webhookUpdate : ErrorCompanion
  | neither : ErrorCompanion
deriving Repr, DecidableEq

/-- Which caller-supplied callback an error-reporting call invoked. -/
inductive CallbackInvoked where
  | onWebhookError : CallbackInvoked
  | onInHandlerError : CallbackInvoked
deriving Repr, DecidableEq

/-- `Webhook.error` of webhook.go as the list of callback invocations it
performs, given which callbacks are non-nil (`hasOnWebhookError` /
`hasOnInHandlerError` model `w.OnWebhookError != nil` and
`w.OnInHandlerError != nil`): the `io.Writer` case calls `OnWebhookError`
when set, the `*WebhookUpdate` case calls `OnInHandlerError` when set, and
every other case falls through the type switch. The function is total: no
branch can fail. -/
def Webhook.errorReport (hasOnWebhookError hasOnInHandlerError : Bool)
    (other : ErrorCompanion) : List CallbackInvoked :=
  match other with
  | .bodyWriter => if hasOnWebhookError then [.onWebhookError] else []
  | .webhookUpdate => if hasOnInHandlerError then [.onInHandlerError] else []
  | .neither => []

/-! ## Handler registry (map-of-handler-lists webhook)

The webhook variant with the `handlers map[UpdateType][]Handler` field is
referenced by its tests (`TestWebhook_Bind`, `TestWebhook_DeleteHandlerByIndex`,
`TestClient_Once`) and by the `Client` aliases (`Client.On`,
`Client.DeleteHandler`, `Client.Once`), but the file defining `Webhook.Bind`,
`Webhook.DeleteHandlerByIndex` and the dispatch loop is not among the
sources, so those three operations are modelled from the specification.
`Client.Once` itself is in the sources and is translated from them.

A registered handler is either a directly bound callback or the
self-removing wrapper that `Client.Once` installs, which records the index
it was bound at. -/

/-- A handler registered in the map: `plain h` for a direct `Bind`,
`onceWrap h i` for the closure `Client.Once` binds, capturing the index `i`
it computed before binding. -/
inductive RegHandler (α : Type) where
  | plain (h : α) : RegHandler α
  | onceWrap (h : α) (capturedIndex : Nat) : RegHandler α
deriving Repr, DecidableEq

/-- The `handlers map[UpdateType][]Handler` field, as the per-type handler
sequence (a missing map key is Go's empty slice on read). -/
def HandlerMap (α : Type) : Type := String → List (RegHandler α)

/-- The registry with no handlers for any type. -/
def HandlerMap.empty (α : Type) : HandlerMap α := fun _ => []

/-- Modelled from the spec: `Webhook.Bind` is not among the sources (only
its tests and the `Client.On` alias are). Spec 4.3: appends the handler to
the sequence for the update type, creating the sequence if absent, and
returns the new handler's position. -/
def Webhook.Bind {α : Type} (m : HandlerMap α) (t : String) (rh : RegHandler α) :
    Nat × HandlerMap α :=
  ((m t).length, fun t2 => if t2 = t then m t ++ [rh] else m t2)

/-- The Go slice expression `append(a[:i], a[i+1:]...)` that removes the
element at index `i` (used verbatim in `Client.Once`, and per spec 4.3 the
removal `DeleteHandlerByIndex` performs). -/
def goRemoveAt {β : Type} (a : List β) (i : Nat) : List β :=
  a.take i ++ a.drop (i + 1)

/-- Modelled from the spec: `Webhook.DeleteHandlerByIndex` is not among the
sources (only its test and the `Client.DeleteHandler` alias are). Spec 4.3
`unbindAt`: removes the handler at the index, shifting later handlers down
by one position. -/
def Webhook.DeleteHandlerByIndex {α : Type} (m : HandlerMap α) (t : String) (i : Nat) :
    HandlerMap α :=
  fun t2 => if t2 = t then goRemoveAt (m t) i else m t2

/-- `Client.On` (sources): alias for `Webhook.Bind` on a directly bound
handler; returns the index of the new handler. -/
def Client.On {α : Type} (m : HandlerMap α) (t : String) (h : α) : Nat × HandlerMap α :=
  Webhook.Bind m t (.plain h)

/-- `Client.DeleteHandler` (sources): alias for `Webhook.DeleteHandlerByIndex`. -/
def Client.DeleteHandler {α : Type} (m : HandlerMap α) (t : String) (i : Nat) : HandlerMap α :=
  Webhook.DeleteHandlerByIndex m t i

/-- `Client.Once` (sources): records `i := len(c.w.handlers[updateType])`,
then binds a wrapper that runs the handler and afterwards removes the entry
at index `i` with `append(a[:i], a[i+1:]...)`. -/
def Client.Once {α : Type} (m : HandlerMap α) (t : String) (h : α) : HandlerMap α :=
  (Webhook.Bind m t (.onceWrap h (m t).length)).2

/-- Run one registered handler against the current registry: the underlying
callback is invoked (recorded in the trace), and a once-wrapper then
removes the entry at its captured index from the current sequence for its
type, exactly as the closure in `Client.Once` mutates `c.w.handlers`. -/
def invokeHandler {α : Type} (m : HandlerMap α) (t : String) :
    RegHandler α → HandlerMap α × List α
  | .plain h => (m, [h])
  | .onceWrap h i => (fun t2 => if t2 = t then goRemoveAt (m t) i else m t2, [h])

/-- Modelled from the spec: the dispatch loop of the handlers-map webhook is
not among the sources. Spec 4.3/4.4: look up a read-only snapshot of the
sequence for the update's type at the moment of lookup, then invoke each
handler of the snapshot in order; an empty snapshot is a no-op. Returns the
registry after dispatch and the trace of invoked callbacks. -/
def dispatchUpdate {α : Type} (m : HandlerMap α) (t : String) : HandlerMap α × List α :=
  (m t).foldl
    (fun acc rh =>
      let step := invokeHandler acc.1 t rh
      (step.1, acc.2 ++ step.2))
    (m, [])

/-! ## GetInvoicesOptions.QueryParams and joinInt64 (options file) -/

/-- `GetInvoicesOptions` of the options file (`InvoiceIds []int64`). -/
structure GetInvoicesOptions where
  Asset : String
  Status : String
  InvoiceIds : List Int
  Offset : Int
  Count : Int

/-- `url.Values` as the map from key to its list of values. -/
def GoUrlValues : Type := String → List String

/-- `url.Values.Set`: replace the values of `key` with the one value. -/
def valuesSet (vs : GoUrlValues) (key v : String) : GoUrlValues :=
  fun k => if k = key then [v] else vs k

/-- `joinInt64` of the options file: writes `strconv.FormatInt(items[0], 10)`
and then appends `sep` and the remaining items. The unguarded `items[0]`
panics on an empty slice, which is `none`. -/
def joinInt64 (items : List Int) (sep : String) : Option String :=
  match items with
  | [] => none
  | x :: rest => some (rest.foldl (fun sb i => sb ++ sep ++ toString i) (toString x))

/-- `GetInvoicesOptions.QueryParams` of the options file: builds the base
`url.Values` whose `invoices_ids` entry is `joinInt64(opt.InvoiceIds, ",")`
- evaluated unconditionally inside the composite literal - then sets
`offset` and conditionally `count`. A panic in `joinInt64` propagates,
which is `none`. -/
def GetInvoicesOptions.QueryParams (opt : GetInvoicesOptions) : Option GoUrlValues :=
  match joinInt64 opt.InvoiceIds "," with
  | none => none
  | some ids =>
    let base : GoUrlValues := fun k =>
      if k = "asset" then [opt.Asset]
      else if k = "status" then [opt.Status]
      else if k = "invoices_ids" then [ids]
      else []
    let withOffset := valuesSet base "offset" (toString opt.Offset)
    some (if 0 < opt.Count ∧ opt.Count < 1000 ∧ opt.Count ≠ 100 then
        valuesSet withOffset "count" (toString opt.Count)
      else withOffset)

/-! ## Shared lemmas about the embedded operations -/

/-- The bytes of an ASCII request body. -/
def strBytes (s : String) : List Nat := s.data.map Char.toNat

/-- With the signature header set to the hex encoding of the correct MAC,
`verify` reduces to the unmarshal step: the hex decode round-trips and the
constant-time comparison succeeds. -/
theorem verify_hexEncode_mac (tokenHash body : List Nat) :
    Webhook.verify tokenHash ⟨hexEncodeString (hmacSha256 tokenHash body), body⟩ =
      match unmarshalWebhookUpdate body with
      | .error e => .error (.unmarshal e)
      | .ok u => .ok u := by
  unfold Webhook.verify
  rw [show (⟨hexEncodeString (hmacSha256 tokenHash body), body⟩ : WebhookRequest).Signature
      = hexEncodeString (hmacSha256 tokenHash body) from rfl,
    hexDecodeString_hexEncodeString _ (hmacSha256_lt tokenHash body)]
  simp [constantTimeCompare_self]

/-- Removing index `i` via the Go slice expression shifts every later
position down by one. -/
theorem goRemoveAt_getElem_eq {β : Type} (l : List β) (i j : Nat) (hij : i ≤ j) :
    (goRemoveAt l i)[j]? = l[j + 1]? := by
  unfold goRemoveAt
  rcases le_or_lt i l.length with hi | hi
  · rw [List.getElem?_append_right (by simp [List.length_take]; omega)]
    rw [List.length_take, Nat.min_eq_left hi, List.getElem?_drop]
    congr 1
    omega
  · rw [List.take_of_length_le (by omega), List.drop_eq_nil_of_le (by omega),
      List.append_nil]
    rw [List.getElem?_eq_none (by omega), List.getElem?_eq_none (by omega)]

/-! ## Claim theorems -/

/-- C1: for every body, signing key, and provided signature bytes that
differ from the HMAC-SHA-256 of the body under the key, `Webhook.verify`
returns `ErrorWrongSignature` and produces no update. -/
theorem verify_rejects_wrong_signature (tokenHash body s : List Nat) (sig : String)
    (hdec : hexDecodeString sig = some s) (hne : s ≠ hmacSha256 tokenHash body) :
    Webhook.verify tokenHash ⟨sig, body⟩ = .error .wrongSignature ∧
    ∀ u, Webhook.verify tokenHash ⟨sig, body⟩ ≠ .ok u := by
  have hctc : constantTimeCompare (hmacSha256 tokenHash body) s = false := by
    cases hc : constantTimeCompare (hmacSha256 tokenHash body) s
    · rfl
    · exact absurd ((constantTimeCompare_iff _ _).mp hc).symm hne
  have hv : Webhook.verify tokenHash ⟨sig, body⟩ = .error .wrongSignature := by
    unfold Webhook.verify
    rw [show (⟨sig, body⟩ : WebhookRequest).Signature = sig from rfl, hdec]
    simp [hctc]
  exact ⟨hv, fun u hu => by rw [hv] at hu; cases hu⟩

/-- C1 witness: the empty signature bytes hex-decode from the empty header
and differ from the 32-byte MAC, and verification of that request is
rejected with `ErrorWrongSignature`. -/
theorem verify_rejects_wrong_signature_witness :
    hexDecodeString "" = some [] ∧ ([] : List Nat) ≠ hmacSha256 [] [] ∧
    Webhook.verify [] ⟨"", []⟩ = .error .wrongSignature := by
  have hne : ([] : List Nat) ≠ hmacSha256 [] [] := by
    intro h
    have hl := congrArg List.length h
    rw [hmacSha256_length] at hl
    simp at hl
  exact ⟨rfl, hne, (verify_rejects_wrong_signature [] [] [] "" rfl hne).1⟩

/-- C2 counterexample: the claim quantifies over every body, but `verify`
also unmarshals the body after the signature check, so the correctly signed
one-byte body "x" makes `verify` return an unmarshal error instead of
accepting: the claim as stated is false at this input. -/
theorem verify_correct_sig_nonjson_errors :
    Webhook.verify [] ⟨hexEncodeString (hmacSha256 [] (strBytes "x")), strBytes "x"⟩ =
      .error (.unmarshal .invalidJson) := by
  rw [verify_hexEncode_mac]
  rfl

/-- C2 (amended): for every body and the correct signing key, verifying the
body against the hex-encoded HMAC-SHA-256 of the body under the key passes
the signature check - neither `ErrorWrongSignature` nor a signature-decode
error is possible - and whenever the body unmarshals as a `WebhookUpdate`,
`verify` returns that update with no error. -/
theorem verify_accepts_correct_signature (tokenHash body : List Nat) :
    Webhook.verify tokenHash ⟨hexEncodeString (hmacSha256 tokenHash body), body⟩ ≠
        .error .wrongSignature ∧
    Webhook.verify tokenHash ⟨hexEncodeString (hmacSha256 tokenHash body), body⟩ ≠
        .error .decodeSignature ∧
    ∀ u, unmarshalWebhookUpdate body = .ok u →
      Webhook.verify tokenHash ⟨hexEncodeString (hmacSha256 tokenHash body), body⟩ = .ok u := by
  rw [verify_hexEncode_mac]
  cases hu : unmarshalWebhookUpdate body with
  | error e => exact ⟨by simp, by simp, fun u h => by cases h⟩
  | ok u => exact ⟨by simp, by simp, fun v h => by cases h; rfl⟩

/-- C2 witness: the body consisting of an empty JSON object unmarshals to
the zero `WebhookUpdate`, and verifying it against its correct hex-encoded
MAC returns exactly that update with no error. -/
theorem verify_accepts_correct_signature_witness :
    unmarshalWebhookUpdate (strBytes "\x7b\x7d") = .ok WebhookUpdate.zero ∧
    Webhook.verify []
        ⟨hexEncodeString (hmacSha256 [] (strBytes "\x7b\x7d")), strBytes "\x7b\x7d"⟩ =
      .ok WebhookUpdate.zero := by
  have hok : unmarshalWebhookUpdate (strBytes "\x7b\x7d") = .ok WebhookUpdate.zero := rfl
  exact ⟨hok, (verify_accepts_correct_signature [] (strBytes "\x7b\x7d")).2.2 _ hok⟩

/-- C3: at a failing input - a delivery whose signature header "00" does
not match the MAC of the body - the Run loop body reports
`ErrorWrongSignature` and does not decode the body, but processing does not
stop there: lacking a `continue` after the error report, it still calls
`w.d.Dispatch(upd)` with the nil update, contradicting the claim (and the
doc comment on `ErrorWrongSignature`) that the update is not processed
further. -/
theorem runIteration_bad_signature_still_dispatches :
    Webhook.runIteration [] ⟨"00", strBytes "\x7b\x7d"⟩ =
      [.errorReported .wrongSignature, .dispatchCalled none] ∧
    RunEvent.dispatchCalled none ∈ Webhook.runIteration [] ⟨"00", strBytes "\x7b\x7d"⟩ := by
  have hctc : constantTimeCompare (hmacSha256 [] (strBytes "\x7b\x7d")) [0] = false :=
    constantTimeCompare_false_of_length_ne _ _ (by rw [hmacSha256_length]; decide)
  have hv : Webhook.verify [] ⟨"00", strBytes "\x7b\x7d"⟩ = .error .wrongSignature := by
    unfold Webhook.verify
    rw [show (⟨"00", strBytes "\x7b\x7d"⟩ : WebhookRequest).Signature = "00" from rfl,
      show hexDecodeString "00" = some [0] from rfl]
    simp [hctc]
  unfold Webhook.runIteration
  rw [hv]
  exact ⟨rfl, by simp⟩

/-- C4: for every request whose signature header is not valid hex,
verification fails closed: `verify` returns the wrapped decode error to the
caller (the embedding is total, so nothing is thrown), no update is
produced, and the Run loop never dispatches an update for the request. -/
theorem verify_fails_closed_on_bad_hex (tokenHash body : List Nat) (sig : String)
    (hdec : hexDecodeString sig = none) :
    Webhook.verify tokenHash ⟨sig, body⟩ = .error .decodeSignature ∧
    (∀ u, Webhook.verify tokenHash ⟨sig, body⟩ ≠ .ok u) ∧
    (∀ u, RunEvent.dispatchCalled (some u) ∉ Webhook.runIteration tokenHash ⟨sig, body⟩) := by
  have hv : Webhook.verify tokenHash ⟨sig, body⟩ = .error .decodeSignature := by
    unfold Webhook.verify
    rw [show (⟨sig, body⟩ : WebhookRequest).Signature = sig from rfl, hdec]
  refine ⟨hv, fun u hu => ?_, fun u => ?_⟩
  · rw [hv] at hu; cases hu
  · unfold Webhook.runIteration
    rw [hv]
    simp

/-- C4 witness: the header "zz" is not valid hex and verification of a
request carrying it fails with the signature-decode error. -/
theorem verify_fails_closed_on_bad_hex_witness :
    hexDecodeString "zz" = none ∧
    Webhook.verify [] ⟨"zz", []⟩ = .error .decodeSignature := by
  have hz : hexDecodeString "zz" = none := by decide
  exact ⟨hz, (verify_fails_closed_on_bad_hex [] [] "zz" hz).1⟩

/-- C5 counterexample: the correctly signed body consisting of an empty
JSON object lacks update_type, id and payload, yet `verify` decodes it
successfully into the zero-valued update instead of failing with a decode
error: the claim as stated is false at this input. -/
theorem verify_missing_fields_decodes_ok :
    Webhook.verify []
        ⟨hexEncodeString (hmacSha256 [] (strBytes "\x7b\x7d")), strBytes "\x7b\x7d"⟩ =
      .ok WebhookUpdate.zero := by
  rw [verify_hexEncode_mac]
  rfl

/-- C5 (amended): `json.Unmarshal` does not fail on missing required
fields - a correctly signed well-formed body without update_type decodes to
the zero-valued update and is dispatched - and only a body that fails to
unmarshal (e.g. malformed JSON) produces a decode error, in which case no
update is dispatched to handlers. -/
theorem decode_error_only_for_malformed_body (tokenHash body : List Nat) :
    unmarshalWebhookUpdate (strBytes "\x7b\x7d") = .ok WebhookUpdate.zero ∧
    ∀ e, unmarshalWebhookUpdate body = .error e →
      Webhook.verify tokenHash ⟨hexEncodeString (hmacSha256 tokenHash body), body⟩ =
          .error (.unmarshal e) ∧
      ∀ u, RunEvent.dispatchCalled (some u) ∉
          Webhook.runIteration tokenHash ⟨hexEncodeString (hmacSha256 tokenHash body), body⟩ := by
  refine ⟨rfl, fun e he => ?_⟩
  have hv : Webhook.verify tokenHash ⟨hexEncodeString (hmacSha256 tokenHash body), body⟩ =
      .error (.unmarshal e) := by
    rw [verify_hexEncode_mac, he]
  refine ⟨hv, fun u => ?_⟩
  unfold Webhook.runIteration
  rw [hv]
  simp

/-- C5 witness: the correctly signed body "[]" is well-formed JSON of the
wrong kind, unmarshalling fails with the type error, and `verify` returns
it wrapped. -/
theorem decode_error_only_for_malformed_body_witness :
    unmarshalWebhookUpdate (strBytes "[]") = .error (.typeMismatch "WebhookUpdate") ∧
    Webhook.verify [] ⟨hexEncodeString (hmacSha256 [] (strBytes "[]")), strBytes "[]"⟩ =
      .error (.unmarshal (.typeMismatch "WebhookUpdate")) := by
  have he : unmarshalWebhookUpdate (strBytes "[]") = .error (.typeMismatch "WebhookUpdate") := rfl
  exact ⟨he, ((decode_error_only_for_malformed_body [] (strBytes "[]")).2 _ he).1⟩

/-- C6: binding h1 then h2 for "invoice_paid" on an empty registry returns
positions 0 and 1, dispatching one invoice_paid delivery invokes exactly h1
then h2 (each once, in registration order), and in general `Bind` appends
to the per-type sequence and returns the new handler's position. -/
theorem bind_appends_and_dispatches_in_order {α : Type} (h1 h2 : α) :
    (Client.On (HandlerMap.empty α) "invoice_paid" h1).1 = 0 ∧
    (Client.On (Client.On (HandlerMap.empty α) "invoice_paid" h1).2 "invoice_paid" h2).1 = 1 ∧
    (dispatchUpdate
        (Client.On (Client.On (HandlerMap.empty α) "invoice_paid" h1).2 "invoice_paid" h2).2
        "invoice_paid").2 = [h1, h2] ∧
    ∀ (m : HandlerMap α) (t : String) (rh : RegHandler α),
      (Webhook.Bind m t rh).2 t = m t ++ [rh] ∧ (Webhook.Bind m t rh).1 = (m t).length := by
  refine ⟨rfl, ?_, ?_, fun m t rh => ⟨by simp [Webhook.Bind], rfl⟩⟩
  · simp [Client.On, Webhook.Bind, HandlerMap.empty]
  · simp [Client.On, Webhook.Bind, HandlerMap.empty, dispatchUpdate, invokeHandler]

/-- C7: with h1 then h2 bound for a type, deleting index 0 leaves exactly
h2 registered, at index 0; and in general deleting index i shifts every
handler at a later index down by one position. -/
theorem delete_at_index_shifts_down {α : Type} (h1 h2 : α) :
    (Client.DeleteHandler
        (Client.On (Client.On (HandlerMap.empty α) "invoice_paid" h1).2 "invoice_paid" h2).2
        "invoice_paid" 0) "invoice_paid" = [.plain h2] ∧
    ∀ (m : HandlerMap α) (t : String) (i j : Nat), i ≤ j →
      ((Webhook.DeleteHandlerByIndex m t i) t)[j]? = (m t)[j + 1]? := by
  constructor
  · simp [Client.DeleteHandler, Client.On, Webhook.Bind, HandlerMap.empty,
      Webhook.DeleteHandlerByIndex, goRemoveAt]
  · intro m t i j hij
    simp only [Webhook.DeleteHandlerByIndex, if_pos rfl]
    exact goRemoveAt_getElem_eq (m t) i j hij

/-- C7 witness: deleting index 0 for a type on the empty registry satisfies
the shift equation at position 0. -/
theorem delete_at_index_shifts_down_witness :
    (0 : Nat) ≤ 0 ∧
    ((Webhook.DeleteHandlerByIndex (HandlerMap.empty Nat) "invoice_paid" 0) "invoice_paid")[0]? =
      ((HandlerMap.empty Nat) "invoice_paid")[1]? :=
  ⟨Nat.le_refl 0,
    (delete_at_index_shifts_down (0 : Nat) 0).2 (HandlerMap.empty Nat) "invoice_paid" 0 0
      (Nat.le_refl 0)⟩

/-- C8: a handler registered via `Client.Once` on an empty registry fires
exactly once on the first matching delivery, the wrapper removes itself,
zero handlers remain registered for the type, and a second delivery of the
same type (modelled as dispatched after the first, the registry being the
only shared state) invokes nothing. -/
theorem once_fires_once_and_unregisters {α : Type} (t : String) (h : α) :
    (dispatchUpdate (Client.Once (HandlerMap.empty α) t h) t).2 = [h] ∧
    (dispatchUpdate (Client.Once (HandlerMap.empty α) t h) t).1 t = [] ∧
    (dispatchUpdate ((dispatchUpdate (Client.Once (HandlerMap.empty α) t h) t).1) t).2 = [] := by
  refine ⟨?_, ?_, ?_⟩ <;>
    simp [Client.Once, Webhook.Bind, HandlerMap.empty, dispatchUpdate, invokeHandler, goRemoveAt]

/-- C9: `Webhook.error` with a nil `OnWebhookError` / `OnInHandlerError`
callback is a silent no-op for the matching companion argument, and a
companion that is neither an `io.Writer` nor a `*WebhookUpdate` (including
nil) invokes no callback at all; the function is total, so no panic is
possible. -/
theorem error_nil_callbacks_are_noop (hw hh : Bool) (other : ErrorCompanion) :
    Webhook.errorReport false false other = [] ∧
    Webhook.errorReport hw hh .neither = [] ∧
    Webhook.errorReport false hh .bodyWriter = [] ∧
    Webhook.errorReport hw false .webhookUpdate = [] := by
  cases other <;> simp [Webhook.errorReport]

/-- C10: for every `GetInvoicesOptions` whose InvoiceIds slice is empty,
`QueryParams` panics (modelled as `none`): it unconditionally calls
`joinInt64`, which indexes the first element of the slice without a
guard. -/
theorem queryParams_empty_invoice_ids_panics (opt : GetInvoicesOptions)
    (h : opt.InvoiceIds = []) :
    opt.QueryParams = none ∧ joinInt64 opt.InvoiceIds "," = none := by
  have hj : joinInt64 opt.InvoiceIds "," = none := by rw [h]; rfl
  exact ⟨by unfold GetInvoicesOptions.QueryParams; rw [hj], hj⟩

/-- C10 witness: the zero-valued options record has an empty InvoiceIds
slice and its `QueryParams` panics. -/
theorem queryParams_empty_invoice_ids_panics_witness :
    ({ Asset := "", Status := "", InvoiceIds := [], Offset := 0, Count := 0 } :
        GetInvoicesOptions).InvoiceIds = [] ∧
    ({ Asset := "", Status := "", InvoiceIds := [], Offset := 0, Count := 0 } :
        GetInvoicesOptions).QueryParams = none :=
  ⟨rfl, (queryParams_empty_invoice_ids_panics _ rfl).1⟩

end GoCryptoPay
